import Mathlib

/-
Formal model of the telemetry2kml trajectory-cleaning pipeline
(telemetry2kml.py, class Telemetry2kmlConverter).

Modelling conventions:
* Python floats are modelled as rationals (ℚ); `datetime` values are modelled
  by their timestamp in seconds (ℚ), matching `datetime_to_float` /
  `total_seconds()`.
* A record (`dict` in the source) is the structure `Sample`.  The raw CSV
  fields that the pipeline reads are typed: `dateTime` (parsed
  "Date"+"Time"), `sats` (the already-int-converted "Sats"), `gps1`/`gps2`
  (the first and second space-separated fields of the "GPS" string, i.e.
  latitude then longitude), `varioAlt` ("Vario Alt(m)", `none` when the field
  is missing or empty, mirroring Python falsiness of the string), `gpsAlt`
  ("GPS Alt(m)").  The fields written by the pipeline are `index`,
  `pointDescription`, `coordinates`, `interpolated`, `heightAboveGround`.
* "Point Description" strings are modelled by the inductive type `Desc` whose
  constructors carry exactly the data interpolated into the f-strings.
* Python exceptions that abort the run are modelled by `Except PErr`:
  `zeroDivision` (float division by zero in the speed test), `indexError`
  (`self.data[0]` / `self.data[-1]` on an emptied list in the boundary trim),
  `valueErrorPchip` (scipy `PchipInterpolator` rejecting fewer than two
  points or non-strictly-increasing abscissae), `assertNoValidCoords`
  (the `assert any(...)` in `set_calculated_values`),
  `typeErrorNoneSubscript` (subscripting a `None` coordinate there).
* `round(x, n)` is Python's round-half-to-even on `n` decimal digits,
  modelled exactly on ℚ by `pyRound`.
* `np.median` is modelled by `medianQ` (sort; middle element for odd length,
  mean of the two middle elements for even length).  `np.median` of an empty
  array is NaN in numpy; the pipeline never compares it on that path, so the
  model returns the junk value 0 there.
* `scipy.interpolate.PchipInterpolator` is modelled by `pchipDerivs` /
  `pchipEval`, a direct transcription of scipy's `_find_derivatives`
  (Fritsch–Carlson weighted harmonic mean with `_edge_case` endpoint rule)
  and piecewise cubic Hermite evaluation.
-/

namespace Telemetry2kml

/-- A 3-D coordinate in (x = longitude, y = latitude, z = elevation) order. -/
abbrev Vec3 := ℚ × ℚ × ℚ

/-- Pipeline settings read from `telemetry2kml_settings.yml`:
`validSatRange`, `xyzLimit`, `xyzDeltaLimit`, `xyzRounding`. -/
structure Settings where
  validSatRange : ℤ × ℤ
  xyzLimit : Vec3
  xyzDeltaLimit : Vec3
  xyzRounding : ℕ × ℕ × ℕ
  deriving Repr, DecidableEq

/-- The "Point Description" field.  Constructors carry the values the source
interpolates into the corresponding f-strings. -/
inductive Desc where
  | validGPS
  | badSats (n : ℤ)
  | tooFarFromMedian (c : Vec3) (med : Vec3)
  | duplicateLocation
  | impossibleSpeed (v : Vec3)
  deriving Repr, DecidableEq

/-- One telemetry record (one CSV row dict). -/
structure Sample where
  dateTime : ℚ
  sats : ℤ
  gps1 : ℚ
  gps2 : ℚ
  varioAlt : Option ℚ
  gpsAlt : ℚ
  index : ℕ
  pointDescription : Desc
  coordinates : Option Vec3
  interpolated : Bool
  heightAboveGround : ℚ
  deriving Repr, DecidableEq

/-- Build a raw (pre-pipeline) record; the pipeline-written fields start at
arbitrary defaults. -/
def mkRaw (t : ℚ) (sats : ℤ) (lat lon : ℚ) (vario : Option ℚ) (alt : ℚ) : Sample :=
  { dateTime := t, sats := sats, gps1 := lat, gps2 := lon, varioAlt := vario,
    gpsAlt := alt, index := 0, pointDescription := .validGPS, coordinates := none,
    interpolated := false, heightAboveGround := 0 }

/-- Python exceptions that abort the run. -/
inductive PErr where
  | zeroDivision
  | indexError
  | valueErrorPchip
  | assertNoValidCoords
  | typeErrorNoneSubscript
  deriving Repr, DecidableEq

/-! ### Python `round` on rationals -/

/-- Floor of a rational (denominator is positive, so `Int.fdiv` is the floor). -/
def ratFloor (x : ℚ) : ℤ := Int.fdiv x.num x.den

/-- Round-half-to-even to an integer, Python's `round` tie rule. -/
def roundHalfEven (x : ℚ) : ℤ :=
  let f := ratFloor x
  let r := x - (f : ℚ)
  if r < 1 / 2 then f
  else if 1 / 2 < r then f + 1
  else if f % 2 = 0 then f else f + 1

/-- Python `round(x, n)` on rationals. -/
def pyRound (n : ℕ) (x : ℚ) : ℚ := (roundHalfEven (x * 10 ^ n) : ℚ) / 10 ^ n

/-! ### `np.median` -/

/-- Median of a list of rationals (`np.median`): middle element of the sorted
list for odd length, mean of the two middle elements for even length.
Empty input yields the junk value 0 (numpy would yield NaN; the pipeline
never uses the median on that path). -/
def medianQ (l : List ℚ) : ℚ :=
  let s := l.insertionSort (· ≤ ·)
  let n := s.length
  if n = 0 then 0
  else if n % 2 = 1 then s.getD (n / 2) 0
  else (s.getD (n / 2 - 1) 0 + s.getD (n / 2) 0) / 2

/-! ### Validity filter (clean_coordinates, first loop) -/

/-- Body of the first loop of `clean_coordinates` for the record at 1-based
position `i`: set `Index`, reset "Point Description" to `Valid GPS` and
`Coordinates` to `None`, then set the coordinate iff
`validSatRange[0] < Sats < validSatRange[1]`; the coordinate is
(longitude, latitude, elevation) — the first two GPS fields reversed — with
elevation `Vario Alt(m)` when present (Python `or`) else `GPS Alt(m)`.
On rejection record the offending satellite count. -/
def validityRecord (S : Settings) (i : ℕ) (r : Sample) : Sample :=
  let r0 := { r with index := i, pointDescription := Desc.validGPS,
                     coordinates := (none : Option Vec3) }
  if S.validSatRange.1 < r.sats ∧ r.sats < S.validSatRange.2 then
    { r0 with coordinates := some (r.gps2, r.gps1, r.varioAlt.getD r.gpsAlt) }
  else
    { r0 with pointDescription := Desc.badSats r.sats }

/-- Map a function taking the (from `start`) position over a list
(`enumerate(self.data, start)`). -/
def enumMap (f : ℕ → Sample → Sample) : ℕ → List Sample → List Sample
  | _, [] => []
  | i, r :: rest => f i r :: enumMap f (i + 1) rest

/-- The first loop of `clean_coordinates` (`enumerate(self.data, start=1)`). -/
def validityPass (S : Settings) (d : List Sample) : List Sample :=
  enumMap (validityRecord S) 1 d

/-- Per-axis medians over the currently valid coordinates. -/
def medianCoords (d : List Sample) : Vec3 :=
  let cs := d.filterMap (·.coordinates)
  (medianQ (cs.map (·.1)), medianQ (cs.map (·.2.1)), medianQ (cs.map (·.2.2)))

/-! ### Outlier rejection (clean_coordinates, second loop) -/

/-- Median-distance test: any axis at or beyond `xyzLimit` from the median. -/
def medianCond (S : Settings) (med c : Vec3) : Bool :=
  decide (|c.1 - med.1| ≥ S.xyzLimit.1) ||
  decide (|c.2.1 - med.2.1| ≥ S.xyzLimit.2.1) ||
  decide (|c.2.2 - med.2.2| ≥ S.xyzLimit.2.2)

/-- Planar (x, y) equality (`Coordinates[:2] == Coordinates[:2]`). -/
def planarEq (c cg : Vec3) : Bool :=
  decide (c.1 = cg.1) && decide (c.2.1 = cg.2.1)

/-- The three per-axis absolute speeds relative to the last good coordinate. -/
def speedsOf (c cg : Vec3) (dt : ℚ) : Vec3 :=
  (|(c.1 - cg.1) / dt|, |(c.2.1 - cg.2.1) / dt|, |(c.2.2 - cg.2.2) / dt|)

/-- Speed test: any axis at or beyond `xyzDeltaLimit`. -/
def speedCond (S : Settings) (c cg : Vec3) (dt : ℚ) : Bool :=
  decide ((speedsOf c cg dt).1 ≥ S.xyzDeltaLimit.1) ||
  decide ((speedsOf c cg dt).2.1 ≥ S.xyzDeltaLimit.2.1) ||
  decide ((speedsOf c cg dt).2.2 ≥ S.xyzDeltaLimit.2.2)

/-- State carried by the second loop: `last_good_coord_index` together with
the last good record's `DateTime` and `Coordinates` (the only fields the loop
reads through `self.data[last_good_coord_index]`; an accepted record is never
mutated afterwards, so the snapshot equals the live lookup). -/
abbrev LastGood := Option (ℕ × ℚ × Vec3)

/-- Body of the second loop of `clean_coordinates` for the record at 0-based
position `i` (`enumerate(self.data)`).  The guards
`last_good_coord_index and …` use Python truthiness, so they are skipped both
when no record has been accepted yet AND when the last accepted record sits
at position 0.  The speed test divides by the elapsed seconds with no zero
guard: floats raise `ZeroDivisionError` in Python, modelled by
`PErr.zeroDivision`. -/
def step (S : Settings) (med : Vec3) (lg : LastGood) (i : ℕ) (r : Sample) :
    Except PErr (LastGood × Sample) :=
  match r.coordinates with
  | none => .ok (lg, r)
  | some c =>
    if medianCond S med c then
      .ok (lg, { r with pointDescription := Desc.tooFarFromMedian c med,
                        coordinates := none })
    else
      match lg with
      | some (j, tg, cg) =>
        if j ≠ 0 ∧ planarEq c cg then
          .ok (lg, { r with pointDescription := Desc.duplicateLocation,
                            coordinates := none })
        else if j ≠ 0 then
          if r.dateTime - tg = 0 then .error PErr.zeroDivision
          else if speedCond S c cg (r.dateTime - tg) then
            .ok (lg, { r with
                  pointDescription :=
                    Desc.impossibleSpeed (speedsOf c cg (r.dateTime - tg)),
                  coordinates := none })
          else .ok (some (i, r.dateTime, c), r)
        else .ok (some (i, r.dateTime, c), r)
      | none => .ok (some (i, r.dateTime, c), r)

/-- The second loop of `clean_coordinates`, threading `last_good_coord_index`. -/
def outlierGo (S : Settings) (med : Vec3) : LastGood → ℕ → List Sample →
    Except PErr (List Sample)
  | _, _, [] => .ok []
  | lg, i, r :: rest =>
    (step S med lg i r).bind fun p =>
      (outlierGo S med p.1 (i + 1) rest).bind fun rest' => .ok (p.2 :: rest')

/-- The whole outlier-rejection loop (0-based `enumerate`). -/
def outlierPass (S : Settings) (med : Vec3) (d : List Sample) :
    Except PErr (List Sample) :=
  outlierGo S med none 0 d

/-- Boundary trim: `while self.data[0]["Coordinates"] is None: pop(0)` then
the same from the end.  When every coordinate is `None` (or the list is
empty) the first loop empties the list and `self.data[0]` raises
`IndexError`. -/
def trimEnds (d : List Sample) : Except PErr (List Sample) :=
  if d.all (·.coordinates.isNone) then .error PErr.indexError
  else
    .ok ((d.dropWhile (·.coordinates.isNone)).rdropWhile (·.coordinates.isNone))

/-- `clean_coordinates`: the validity loop, the median computation, the
outlier loop, then the boundary trim. -/
def clean_coordinates (S : Settings) (d : List Sample) :
    Except PErr (List Sample) :=
  (outlierPass S (medianCoords (validityPass S d)) (validityPass S d)).bind
    trimEnds

/-! ### PCHIP (scipy.interpolate.PchipInterpolator) -/

/-- numpy sign. -/
def sgn (q : ℚ) : ℤ := if 0 < q then 1 else if q < 0 then -1 else 0

/-- Consecutive differences. -/
def diffs (l : List ℚ) : List ℚ := (l.zip l.tail).map fun p => p.2 - p.1

/-- scipy `PchipInterpolator._edge_case`: one-sided three-point derivative
estimate with the Fritsch–Butland clamps. -/
def edgeCase (h0 h1 m0 m1 : ℚ) : ℚ :=
  let d := ((2 * h0 + h1) * m0 - h0 * m1) / (h0 + h1)
  if sgn d ≠ sgn m0 then 0
  else if sgn m0 ≠ sgn m1 ∧ |d| > 3 * |m0| then 3 * m0
  else d

/-- Interior derivative of scipy `_find_derivatives`: zero at local extrema
or flat secants, else the weighted harmonic mean of the two secant slopes. -/
def interiorDeriv (hkm1 hk mkm1 mk : ℚ) : ℚ :=
  if sgn mkm1 ≠ sgn mk ∨ mkm1 = 0 ∨ mk = 0 then 0
  else
    let w1 := 2 * hk + hkm1
    let w2 := hk + 2 * hkm1
    (w1 + w2) / (w1 / mkm1 + w2 / mk)

/-- scipy `PchipInterpolator._find_derivatives` over abscissae `xs` and
ordinates `ys` (two points give the linear slope at both ends). -/
def pchipDerivs (xs ys : List ℚ) : List ℚ :=
  let h := diffs xs
  let m := (diffs ys).zip h |>.map fun p => p.1 / p.2
  if xs.length = 2 then [m.getD 0 0, m.getD 0 0]
  else
    (List.range xs.length).map fun k =>
      if k = 0 then
        edgeCase (h.getD 0 0) (h.getD 1 0) (m.getD 0 0) (m.getD 1 0)
      else if k = xs.length - 1 then
        edgeCase (h.getD (k - 1) 0) (h.getD (k - 2) 0)
                 (m.getD (k - 1) 0) (m.getD (k - 2) 0)
      else
        interiorDeriv (h.getD (k - 1) 0) (h.getD k 0)
                      (m.getD (k - 1) 0) (m.getD k 0)

/-- Index of the polynomial piece used at `t`: the last interval whose left
breakpoint is ≤ t, clipped to the existing pieces (out-of-range arguments
extrapolate with the first/last piece, as scipy's `PPoly` does). -/
def findInterval (xs : List ℚ) (t : ℚ) : ℕ :=
  min ((xs.takeWhile (· ≤ t)).length - 1) (xs.length - 2)

/-- Evaluate the cubic Hermite piece on `[xk, xk1]` with endpoint values
`yk`, `yk1` and derivatives `dk`, `dk1` at `t`. -/
def hermiteEval (xk xk1 yk yk1 dk dk1 t : ℚ) : ℚ :=
  let h := xk1 - xk
  let s := t - xk
  let m := (yk1 - yk) / h
  let c2 := (3 * m - 2 * dk - dk1) / h
  let c3 := (dk + dk1 - 2 * m) / h ^ 2
  yk + dk * s + c2 * s ^ 2 + c3 * s ^ 3

/-- The fitted PCHIP interpolant evaluated at `t`. -/
def pchipEval (xs ys : List ℚ) (t : ℚ) : ℚ :=
  let ds := pchipDerivs xs ys
  let k := findInterval xs t
  hermiteEval (xs.getD k 0) (xs.getD (k + 1) 0) (ys.getD k 0) (ys.getD (k + 1) 0)
              (ds.getD k 0) (ds.getD (k + 1) 0) t

/-! ### Gap interpolation (interpolate_coordinates) -/

/-- First loop of `interpolate_coordinates`:
`record["Interpolated"] = record['Coordinates'] is None`. -/
def markInterpolated (d : List Sample) : List Sample :=
  d.map fun r => { r with interpolated := r.coordinates.isNone }

/-- The `txyz_good` rows: (DateTime, coordinate) of every record with a
non-null coordinate. -/
def anchorsOf (d : List Sample) : List (ℚ × Vec3) :=
  d.filterMap fun r => r.coordinates.map fun c => (r.dateTime, c)

/-- Strictly increasing test for the anchor abscissae. -/
def strictIncr : List ℚ → Bool
  | [] => true
  | [_] => true
  | a :: b :: rest => decide (a < b) && strictIncr (b :: rest)

/-- Lines 217–260 of the source (`interpolate_coordinates` up to, but not
including, the final `set_calculated_values` call): mark `Interpolated`,
build the three per-axis PCHIP interpolants over the good records, and fill
every still-null coordinate with the interpolants evaluated at the record's
time, each axis rounded with `round(., xyzRounding[axis])`.
`PchipInterpolator` raises `ValueError` for fewer than two points or
non-strictly-increasing times (`valueErrorPchip`).  The source assigns the
filled values by the list of null positions (`interp_indices`); mapping over
the records and filling exactly the null ones is the same assignment. -/
def fillCoord (S : Settings) (anch : List (ℚ × Vec3)) (t : ℚ) : Vec3 :=
  (pyRound S.xyzRounding.1 (pchipEval (anch.map (·.1)) (anch.map (·.2.1)) t),
   pyRound S.xyzRounding.2.1 (pchipEval (anch.map (·.1)) (anch.map (·.2.2.1)) t),
   pyRound S.xyzRounding.2.2 (pchipEval (anch.map (·.1)) (anch.map (·.2.2.2)) t))

/-- Fill one record: a record whose coordinate is still `None` receives the
three interpolants evaluated at its time, rounded per axis; others are left
alone. -/
def fillRecord (S : Settings) (anch : List (ℚ × Vec3)) (r : Sample) : Sample :=
  if r.coordinates.isNone then
    { r with coordinates := some (fillCoord S anch r.dateTime) }
  else r

def interpolateFill (S : Settings) (d : List Sample) :
    Except PErr (List Sample) :=
  if (anchorsOf (markInterpolated d)).length < 2 ∨
      ¬ strictIncr ((anchorsOf (markInterpolated d)).map (·.1)) then
    .error PErr.valueErrorPchip
  else
    .ok ((markInterpolated d).map
          (fillRecord S (anchorsOf (markInterpolated d))))

/-! ### Derived fields (set_calculated_values) -/

/-- Python `min` of a nonempty list (junk 0 on empty, never reached). -/
def listMin : List ℚ → ℚ
  | [] => 0
  | x :: xs => xs.foldl min x

/-- Python `max` of a nonempty list (junk 0 on empty, never reached). -/
def listMax : List ℚ → ℚ
  | [] => 0
  | x :: xs => xs.foldl max x

/-- The values of one coordinate axis over all records (axis 0 = x, 1 = y,
2 = z); records with a `None` coordinate contribute nothing, but
`set_calculated_values` subscripts them and crashes, see below. -/
def axisVals (d : List Sample) (i : ℕ) : List ℚ :=
  d.filterMap fun r => r.coordinates.map fun c =>
    if i = 0 then c.1 else if i = 1 then c.2.1 else c.2.2

/-- `self.coordinate_ranges`: per-axis (min, max) over all records. -/
def coordinateRanges (d : List Sample) : List (ℚ × ℚ) :=
  (List.range 3).map fun i => (listMin (axisVals d i), listMax (axisVals d i))

/-- `set_calculated_values`: assert that some record has a coordinate
(`assertNoValidCoords` on failure — "No Valid GPS Coordinates found"),
compute the coordinate ranges — subscripting `record['Coordinates'][i]`
raises `TypeError` if any record still has a `None` coordinate
(`typeErrorNoneSubscript`) — and set, for EVERY record,
`Height above Ground (m) = Coordinates[2] - coordinate_ranges[2][0]`. -/
def set_calculated_values (d : List Sample) : Except PErr (List Sample) :=
  if d.all (·.coordinates.isNone) then .error PErr.assertNoValidCoords
  else if d.any (·.coordinates.isNone) then .error PErr.typeErrorNoneSubscript
  else
    .ok (d.map fun r =>
      { r with heightAboveGround :=
          ((r.coordinates.getD (0, 0, 0)).2.2) -
            ((coordinateRanges d).getD 2 (0, 0)).1 })

/-- `interpolate_coordinates` (which ends by calling
`set_calculated_values`). -/
def interpolate_coordinates (S : Settings) (d : List Sample) :
    Except PErr (List Sample) :=
  (interpolateFill S d).bind set_calculated_values

/-- The full pipeline as run by `__main__`: `clean_coordinates` then
`interpolate_coordinates`. -/
def pipeline (S : Settings) (d : List Sample) : Except PErr (List Sample) :=
  (clean_coordinates S d).bind (interpolate_coordinates S)

/-! ### Concrete fixtures used by the claim counterexamples and witnesses -/

/-- Example settings: `validSatRange (4, 12)`, `xyzLimit (10, 10, 100)`,
`xyzDeltaLimit (50, 50, 50)`, `xyzRounding (6, 6, 1)`. -/
def Sex : Settings :=
  { validSatRange := (4, 12), xyzLimit := (10, 10, 100),
    xyzDeltaLimit := (50, 50, 50), xyzRounding := (6, 6, 1) }

/-- Two samples that both carry a Vario (secondary) altitude. -/
def dC1 : List Sample :=
  [ mkRaw 0 8 10 20 (some 100) 90,
    mkRaw 10 8 10 21 (some 150) 140 ]

/-- Two samples with identical planar (x, y) coordinates; the first is
accepted at position 0. -/
def dC2 : List Sample :=
  [ mkRaw 0 8 10 20 none 100,
    mkRaw 1 8 10 20 none 101 ]

/-- Second sample implies a longitude speed of 100 units/s (limit 50)
relative to the sample accepted at position 0. -/
def dC3 : List Sample :=
  [ mkRaw 0 8 10 20 none 100,
    mkRaw (1 / 100) 8 10 21 none 100 ]

/-- Every satellite count is 0. -/
def dC5 : List Sample :=
  [ mkRaw 0 0 10 20 none 100,
    mkRaw 1 0 10 20 none 100,
    mkRaw 2 0 10 21 none 101 ]

/-- A cleaned trajectory with one interior gap between two anchors. -/
def dC7 : List Sample :=
  [ { mkRaw 0 8 10 20 none 100 with coordinates := some (20, 10, 100) },
    { mkRaw 5 0 0 0 none 0 with coordinates := none },
    { mkRaw 10 8 10 21 none 102 with coordinates := some (21, 10, 102) } ]

/-- A leading bad-satellite sample followed by two good ones. -/
def dC8 : List Sample :=
  [ mkRaw 0 0 10 20 none 100,
    mkRaw 1 8 10 20 none 100,
    mkRaw 2 8 10 21 none 101 ]

/-- A leading bad-satellite sample followed by two good ones. -/
def dC9 : List Sample :=
  [ mkRaw 0 0 10 20 none 100,
    mkRaw 1 8 10 20 none 100,
    mkRaw 2 8 10 21 none 101 ]

/-- Two accepted samples with equal timestamps; the first sits at
position 0. -/
def dC10 : List Sample :=
  [ mkRaw 0 8 10 20 none 100,
    mkRaw 0 8 10 21 none 100 ]

/-- The raw-field projection of a record: the only inputs the pipeline ever
reads (every other field is overwritten before being read). -/
def raw (r : Sample) : ℚ × ℤ × ℚ × ℚ × Option ℚ × ℚ :=
  (r.dateTime, r.sats, r.gps1, r.gps2, r.varioAlt, r.gpsAlt)

/-- Two records agree on the raw input fields. -/
def RawEq (a b : Sample) : Prop := raw a = raw b

/-- Agreement on everything the pipeline has written up to the end of the
validity/outlier stages: raw fields, `Index`, description and coordinate
(`interpolated` and `heightAboveGround` may still hold stale values, which
nothing reads before overwriting). -/
def SemiEq (a b : Sample) : Prop :=
  raw a = raw b ∧ a.index = b.index ∧
    a.pointDescription = b.pointDescription ∧ a.coordinates = b.coordinates

/-- Fixture for the C1 witness: a fully populated trajectory. -/
def dW1 : List Sample :=
  [ { mkRaw 0 8 10 20 (some 100) 90 with coordinates := some (20, 10, 100) },
    { mkRaw 10 8 10 21 (some 150) 140 with coordinates := some (21, 10, 150) } ]

/-- The output of `set_calculated_values` on `dW1`. -/
def outW1 : List Sample := (set_calculated_values dW1).toOption.getD []

/-- Fixture for the C4 witness: bad samples at both ends around two good
ones. -/
def dW4 : List Sample :=
  [ mkRaw 0 0 10 20 none 100,
    mkRaw 1 8 10 20 none 100,
    mkRaw 2 8 10 21 none 101,
    mkRaw 3 0 10 21 none 101 ]

/-- The output of `clean_coordinates` on `dW4`. -/
def outW4 : List Sample := (clean_coordinates Sex dW4).toOption.getD []

/-- The output of `interpolateFill` on `dC7`. -/
def outC7 : List Sample := (interpolateFill Sex dC7).toOption.getD []

/-- The output of the pipeline on `dC8`. -/
def outC8 : List Sample := (pipeline Sex dC8).toOption.getD []

/-- Fixture for the C9 witness: two good samples, nothing rejected or
trimmed. -/
def dW9 : List Sample :=
  [ mkRaw 0 8 10 20 none 100,
    mkRaw 1 8 10 21 none 101 ]

/-- The output of the pipeline on `dW9`. -/
def outW9 : List Sample := (pipeline Sex dW9).toOption.getD []

/-! ### Supporting lemmas -/

theorem roundHalfEven_intCast (k : ℤ) : roundHalfEven (k : ℚ) = k := by
  have hf : ratFloor (k : ℚ) = k := by
    simp [ratFloor, Rat.num_intCast, Rat.den_intCast, Int.fdiv_one]
  simp only [roundHalfEven, hf]
  norm_num

/-- `round(x, n)` is idempotent. -/
theorem pyRound_idem (n : ℕ) (x : ℚ) : pyRound n (pyRound n x) = pyRound n x := by
  have h10 : ((10 : ℚ)) ^ n ≠ 0 := pow_ne_zero n (by norm_num)
  unfold pyRound
  rw [div_mul_cancel₀ _ h10, roundHalfEven_intCast]

theorem markInterpolated_length (d : List Sample) :
    (markInterpolated d).length = d.length := by
  simp [markInterpolated]

theorem enumMap_length (f : ℕ → Sample → Sample) :
    ∀ (s : ℕ) (l : List Sample), (enumMap f s l).length = l.length := by
  intro s l
  induction l generalizing s with
  | nil => rfl
  | cons r rest ih => simp [enumMap, ih]

theorem enumMap_get (f : ℕ → Sample → Sample) :
    ∀ (l : List Sample) (s i : ℕ) (hi : i < l.length)
      (hi' : i < (enumMap f s l).length),
      (enumMap f s l).get ⟨i, hi'⟩ = f (s + i) (l.get ⟨i, hi⟩) := by
  intro l
  induction l with
  | nil => intro s i hi hi'; cases hi
  | cons r rest ih =>
    intro s i hi hi'
    cases i with
    | zero => rfl
    | succ k =>
      have hk : k < rest.length := by simpa using hi
      have hk' : k < (enumMap f (s + 1) rest).length := by
        rw [enumMap_length]; exact hk
      have := ih (s + 1) k hk hk'
      have harg : s + 1 + k = s + (k + 1) := by omega
      rw [harg] at this
      exact this

/-- The validity-filter loop body only writes `Index`, the description and
the coordinate; it assigns exactly the position it is given as `Index`. -/
theorem validityRecord_pres (S : Settings) (i : ℕ) (r : Sample) :
    (validityRecord S i r).index = i ∧ raw (validityRecord S i r) = raw r := by
  unfold validityRecord
  split <;> exact ⟨rfl, rfl⟩

/-- One outlier step only writes the description and the coordinate. -/
theorem step_ok_pres (S : Settings) (med : Vec3) (lg : LastGood) (i : ℕ)
    (r : Sample) (lg' : LastGood) (r' : Sample)
    (h : step S med lg i r = .ok (lg', r')) :
    r'.index = r.index ∧ raw r' = raw r ∧ r'.interpolated = r.interpolated ∧
      r'.heightAboveGround = r.heightAboveGround := by
  unfold step at h
  repeat' split at h
  all_goals try exact (Except.noConfusion h)
  all_goals injection h with h
  all_goals
    rw [Prod.mk.injEq] at h
    obtain ⟨h1, h2⟩ := h
    subst h2
    exact ⟨rfl, rfl, rfl, rfl⟩

/-- The outlier loop preserves length, `Index` and the raw fields. -/
theorem outlierGo_pres (S : Settings) (med : Vec3) :
    ∀ (l : List Sample) (lg : LastGood) (i0 : ℕ) (out : List Sample),
      outlierGo S med lg i0 l = .ok out →
      out.length = l.length ∧
        ∀ i (hi : i < l.length) (ho : i < out.length),
          (out.get ⟨i, ho⟩).index = (l.get ⟨i, hi⟩).index ∧
            raw (out.get ⟨i, ho⟩) = raw (l.get ⟨i, hi⟩) := by
  intro l
  induction l with
  | nil =>
    intro lg i0 out h
    cases h
    exact ⟨rfl, by intro i hi; cases hi⟩
  | cons r rest ih =>
    intro lg i0 out h
    unfold outlierGo at h
    cases hs : step S med lg i0 r with
    | error e =>
      rw [hs] at h
      exact absurd h (by simp [Except.bind])
    | ok p =>
      obtain ⟨lg', r'⟩ := p
      rw [hs] at h
      simp only [Except.bind] at h
      cases hrest : outlierGo S med lg' (i0 + 1) rest with
      | error e =>
        rw [hrest] at h
        exact absurd h (by simp [Except.bind])
      | ok rest' =>
        rw [hrest] at h
        simp only [Except.bind] at h
        cases h
        obtain ⟨hlen, hpt⟩ := ih lg' (i0 + 1) rest' hrest
        refine ⟨by simp [hlen], ?_⟩
        intro i hi ho
        cases i with
        | zero =>
          obtain ⟨h1, h2, _, _⟩ := step_ok_pres S med lg i0 r lg' r' hs
          exact ⟨h1, h2⟩
        | succ k =>
          have hk : k < rest.length := by simpa using hi
          have hk' : k < rest'.length := by simpa using ho
          exact hpt k hk hk'

/-- `dropWhile` removes an initial segment. -/
theorem dropWhile_eq_drop (p : Sample → Bool) :
    ∀ l : List Sample, ∃ n, l.dropWhile p = l.drop n ∧ n ≤ l.length := by
  intro l
  induction l with
  | nil => exact ⟨0, rfl, by simp⟩
  | cons a t ih =>
    by_cases hp : p a
    · obtain ⟨n, hn, hle⟩ := ih
      exact ⟨n + 1, by simpa [List.dropWhile_cons, hp] using hn, by simpa using hle⟩
    · exact ⟨0, by simp [List.dropWhile_cons, hp], by simp⟩

/-- After a successful `clean_coordinates`, the surviving samples are a
contiguous block of the input: the sample at output position `i` carries
`Index = n + 1 + i` (its original 1-based ingestion position) and the raw
fields of the input sample at position `n + i`, where `n` is the number of
samples trimmed from the head. -/
theorem clean_ok_shape (S : Settings) (d out : List Sample)
    (h : clean_coordinates S d = .ok out) :
    ∃ n, n + out.length ≤ d.length ∧
      ∀ i (hi : i < out.length) (hd : n + i < d.length),
        (out.get ⟨i, hi⟩).index = n + 1 + i ∧
          raw (out.get ⟨i, hi⟩) = raw (d.get ⟨n + i, hd⟩) := by
  unfold clean_coordinates at h
  cases hop : outlierPass S (medianCoords (validityPass S d)) (validityPass S d) with
  | error e =>
    rw [hop] at h
    exact absurd h (by simp [Except.bind])
  | ok d2 =>
    rw [hop] at h
    simp only [Except.bind] at h
    have hvlen : (validityPass S d).length = d.length := enumMap_length _ _ _
    obtain ⟨hlen2, hpres⟩ := outlierGo_pres S _ (validityPass S d) none 0 d2 hop
    unfold trimEnds at h
    split at h
    · cases h
    · cases h
      obtain ⟨n, hdw, hnle⟩ := dropWhile_eq_drop (fun r => r.coordinates.isNone) d2
      rw [hdw]
      have hpre := List.prefix_iff_eq_take.mp
        (List.rdropWhile_prefix (fun r => r.coordinates.isNone) (d2.drop n))
      refine ⟨n, ?_, ?_⟩
      · have h1 : ((d2.drop n).rdropWhile
            (fun r => r.coordinates.isNone)).length ≤ (d2.drop n).length := by
          rw [hpre]
          exact List.length_take_le' _ _
        have h2 : (d2.drop n).length = d2.length - n := by simp
        omega
      · intro i hi hd
        have hi2 : i < (d2.drop n).length := by
          have h1 : ((d2.drop n).rdropWhile
              (fun r => r.coordinates.isNone)).length ≤ (d2.drop n).length := by
            rw [hpre]
            exact List.length_take_le' _ _
          omega
        have hni : n + i < d2.length := by
          have : (d2.drop n).length = d2.length - n := by simp
          omega
        have hgete :
            ((d2.drop n).rdropWhile
              (fun r => r.coordinates.isNone)).get ⟨i, hi⟩ =
              d2.get ⟨n + i, hni⟩ := by
          rw [List.get_of_eq hpre ⟨i, hi⟩]
          simp only [List.get_eq_getElem, List.getElem_take]
          exact (List.getElem_drop' d2 (by omega)).symm
        have hniv : n + i < (validityPass S d).length := by omega
        obtain ⟨hidx, hraw⟩ := hpres (n + i) hniv (by omega)
        have hvget := enumMap_get (validityRecord S) d 1 (n + i) (by omega) hniv
        obtain ⟨hvidx, hvraw⟩ :=
          validityRecord_pres S (1 + (n + i)) (d.get ⟨n + i, hd⟩)
        constructor
        · rw [hgete, hidx]
          unfold validityPass at hvget ⊢
          rw [hvget, hvidx]
          omega
        · rw [hgete, hraw]
          unfold validityPass at hvget ⊢
          rw [hvget, hvraw]

/-- `fillRecord` only writes the coordinate. -/
theorem fillRecord_pres (S : Settings) (anch : List (ℚ × Vec3)) (r : Sample) :
    (fillRecord S anch r).index = r.index ∧
      raw (fillRecord S anch r) = raw r := by
  unfold fillRecord
  split <;> exact ⟨rfl, rfl⟩

/-- `interpolate_coordinates` preserves length, `Index` and the raw
fields. -/
theorem interp_pres (S : Settings) (l out : List Sample)
    (h : interpolate_coordinates S l = .ok out) :
    out.length = l.length ∧
      ∀ i (hi : i < l.length) (ho : i < out.length),
        (out.get ⟨i, ho⟩).index = (l.get ⟨i, hi⟩).index ∧
          raw (out.get ⟨i, ho⟩) = raw (l.get ⟨i, hi⟩) := by
  unfold interpolate_coordinates at h
  cases hf : interpolateFill S l with
  | error e =>
    rw [hf] at h
    exact absurd h (by simp [Except.bind])
  | ok mid =>
    rw [hf] at h
    simp only [Except.bind] at h
    unfold interpolateFill at hf
    split at hf
    · cases hf
    · cases hf
      unfold set_calculated_values at h
      split at h
      · cases h
      · split at h
        · cases h
        · cases h
          constructor
          · simp [markInterpolated]
          · intro i hi ho
            simp only [List.get_eq_getElem, List.getElem_map, markInterpolated]
            constructor
            · exact (fillRecord_pres S _ _).1
            · exact (fillRecord_pres S _ _).2

/-- C8 amended: after the full pipeline runs, the surviving samples' `Index`
values form a contiguous strictly increasing run: the sample at output
position `i` carries the first survivor's index plus `i`; the first
survivor's index is at least 1 (it is 1 exactly when nothing was trimmed
from the head); and each surviving sample still carries the raw fields of
the input sample at 1-based position `Index` — its original ingestion-time
index, untouched by trimming. -/
theorem C8_index_contiguous (S : Settings) (d out : List Sample)
    (h : pipeline S d = .ok out) :
    ∀ i (hi : i < out.length) (h0 : 0 < out.length),
      (out.get ⟨i, hi⟩).index = (out.get ⟨0, h0⟩).index + i ∧
        1 ≤ (out.get ⟨0, h0⟩).index ∧
        (d.map raw)[(out.get ⟨i, hi⟩).index - 1]? =
          some (raw (out.get ⟨i, hi⟩)) := by
  unfold pipeline at h
  cases hc : clean_coordinates S d with
  | error e =>
    rw [hc] at h
    exact absurd h (by simp [Except.bind])
  | ok mid =>
    rw [hc] at h
    simp only [Except.bind] at h
    obtain ⟨n, hle, hmid⟩ := clean_ok_shape S d mid hc
    obtain ⟨hlen, hpres⟩ := interp_pres S mid out h
    intro i hi h0
    have hi' : i < mid.length := by omega
    have h0' : 0 < mid.length := by omega
    have hdi : n + i < d.length := by omega
    have hd0 : n + 0 < d.length := by omega
    obtain ⟨hidx_i, hraw_i⟩ := hpres i hi' hi
    obtain ⟨hidx_0, hraw_0⟩ := hpres 0 h0' h0
    obtain ⟨hmi, hmr⟩ := hmid i hi' hdi
    obtain ⟨hm0, _⟩ := hmid 0 h0' hd0
    refine ⟨?_, ?_, ?_⟩
    · rw [hidx_i, hidx_0, hmi, hm0]
    · rw [hidx_0, hm0]
      omega
    · rw [hidx_i, hmi]
      have harith : n + 1 + i - 1 = n + i := by omega
      rw [harith, List.getElem?_map, List.getElem?_eq_getElem hdi]
      rw [hraw_i, hmr]
      simp [List.get_eq_getElem]

/-- C8 amended witness: on `dC8` the second surviving sample's index is the
first survivor's index plus one, and the first survivor's index is at
least 1. -/
theorem C8_witness :
    (outC8.get ⟨1, by with_unfolding_all decide⟩).index =
        (outC8.get ⟨0, by with_unfolding_all decide⟩).index + 1 ∧
      1 ≤ (outC8.get ⟨0, by with_unfolding_all decide⟩).index :=
  ⟨(C8_index_contiguous Sex dC8 outC8 (by with_unfolding_all rfl) 1
      (by with_unfolding_all decide) (by with_unfolding_all decide)).1,
   (C8_index_contiguous Sex dC8 outC8 (by with_unfolding_all rfl) 1
      (by with_unfolding_all decide) (by with_unfolding_all decide)).2.1⟩

/-! ### Claim counterexamples and code evaluations -/

/-- C1 counterexample: on `dC1` the pipeline succeeds and sets
`heightAboveGround` 0 for the sample whose secondary altitude source is 100
and 50 for the one whose secondary source is 150 — the code always computes
`z - min z` and never uses the secondary altitude value directly, contrary
to the claim. -/
theorem C1_counterexample :
    (pipeline Sex dC1).map (fun l => l.map fun r => (r.varioAlt, r.heightAboveGround))
        = .ok [(some 100, 0), (some 150, 50)] ∧
      (0 : ℚ) ≠ 100 ∧ (50 : ℚ) ≠ 150 := by
  exact ⟨by with_unfolding_all rfl, by norm_num, by norm_num⟩

/-- C2 failing input evaluated: in `dC2` the second sample's planar (x, y)
coordinates equal those of the sample accepted at position 0, yet the
outlier pass accepts it ("Valid GPS", coordinate kept): the guard
`last_good_coord_index and …` treats index 0 as falsy, so the duplicate
test never fires against a last-good sample at position 0, contrary to the
claim (and to the spec's "reject if lastGood exists"). -/
theorem C2_code_eval :
    (clean_coordinates Sex dC2).map
        (fun l => l.map fun r => (r.coordinates, r.pointDescription))
        = .ok [(some (20, 10, 100), Desc.validGPS),
               (some (20, 10, 101), Desc.validGPS)] ∧
      planarEq (20, 10, 101) (20, 10, 100) = true := by
  exact ⟨by with_unfolding_all rfl, by decide⟩

/-- C3 counterexample: in `dC3` the second sample passes the median test and
implies a longitude speed of 100 units/s against the 50 units/s limit
relative to the last accepted sample — but that sample sits at position 0,
which the truthiness guard treats as "no last good", so the record is
accepted with "Valid GPS" instead of being rejected with an
impossible-speed reason. -/
theorem C3_counterexample :
    (clean_coordinates Sex dC3).map
        (fun l => l.map fun r => (r.coordinates, r.pointDescription))
        = .ok [(some (20, 10, 100), Desc.validGPS),
               (some (21, 10, 100), Desc.validGPS)] ∧
      speedCond Sex (21, 10, 100) (20, 10, 100) (1 / 100 - 0) = true ∧
      medianCond Sex (medianCoords (validityPass Sex dC3)) (21, 10, 100) = false := by
  exact ⟨by with_unfolding_all rfl, by with_unfolding_all decide, by with_unfolding_all decide⟩

/-- C5 failing input evaluated: with every satellite count 0 the boundary
trim pops every record and `self.data[0]` raises `IndexError`; the run never
reaches the "No Valid GPS Coordinates found" assertion of
`set_calculated_values`. -/
theorem C5_code_eval :
    clean_coordinates Sex dC5 = .error PErr.indexError ∧
      pipeline Sex dC5 = .error PErr.indexError ∧
      PErr.indexError ≠ PErr.assertNoValidCoords := by
  exact ⟨by with_unfolding_all rfl, by with_unfolding_all rfl, by decide⟩

/-- C8 counterexample: on `dC8` the pipeline succeeds but the surviving
samples carry indices [2, 3] — unique, increasing, contiguous, yet not
dense from 1, because the head trim removed the sample with index 1 without
renumbering. -/
theorem C8_counterexample :
    (pipeline Sex dC8).map (fun l => l.map (·.index)) = .ok [2, 3] ∧
      (2 : ℕ) ≠ 1 := by
  exact ⟨by with_unfolding_all rfl, by decide⟩

/-- C9 counterexample: on `dC9` the first pipeline run outputs samples with
indices [2, 3]; re-running the full pipeline on that output renumbers the
indices to [1, 2], so the re-run does not yield a trajectory identical to
its input. -/
theorem C9_counterexample :
    (pipeline Sex dC9).map (fun l => l.map (·.index)) = .ok [2, 3] ∧
      ((pipeline Sex dC9).bind fun out => pipeline Sex out).map
          (fun l => l.map (·.index)) = .ok [1, 2] ∧
      ([1, 2] : List ℕ) ≠ [2, 3] := by
  exact ⟨by with_unfolding_all rfl, by with_unfolding_all rfl, by decide⟩

/-- C10 counterexample: in `dC10` both samples carry timestamp 0 and the
second sample's timestamp equals that of the last accepted sample — yet the
outlier pass does not abort with a division-by-zero error: the last accepted
sample sits at position 0, the truthiness guard skips the speed test
entirely, and the sample is accepted. -/
theorem C10_counterexample :
    (clean_coordinates Sex dC10).map
        (fun l => l.map fun r => (r.coordinates.isSome, r.pointDescription))
        = .ok [(true, Desc.validGPS), (true, Desc.validGPS)] ∧
      dC10.map (·.dateTime) = [0, 0] := by
  exact ⟨by with_unfolding_all rfl, rfl⟩

/-! ### C7: frame properties of the gap-fill step -/

/-- C7: the Gap Interpolator's fill step leaves every anchor record unchanged
apart from setting its `interpolated` flag to `false`; it sets
`interpolated = (coordinate is None)` for every sample before filling and
never changes the flag afterwards; and every coordinate it stores has each
axis rounded to the configured axis-specific decimal precision (rounding is
idempotent, so the stored value is a fixed point of `round`). -/
theorem C7_interpolateFill_frame (S : Settings) (d out : List Sample)
    (h : interpolateFill S d = .ok out) :
    out.length = d.length ∧
      ∀ i (hi : i < d.length) (ho : i < out.length),
        ((d.get ⟨i, hi⟩).coordinates.isSome = true →
            out.get ⟨i, ho⟩ = { d.get ⟨i, hi⟩ with interpolated := false }) ∧
          (out.get ⟨i, ho⟩).interpolated = (d.get ⟨i, hi⟩).coordinates.isNone ∧
          ((d.get ⟨i, hi⟩).coordinates.isNone = true →
            (out.get ⟨i, ho⟩).coordinates.isSome = true ∧
              pyRound S.xyzRounding.1
                  ((out.get ⟨i, ho⟩).coordinates.getD (0, 0, 0)).1 =
                ((out.get ⟨i, ho⟩).coordinates.getD (0, 0, 0)).1 ∧
              pyRound S.xyzRounding.2.1
                  ((out.get ⟨i, ho⟩).coordinates.getD (0, 0, 0)).2.1 =
                ((out.get ⟨i, ho⟩).coordinates.getD (0, 0, 0)).2.1 ∧
              pyRound S.xyzRounding.2.2
                  ((out.get ⟨i, ho⟩).coordinates.getD (0, 0, 0)).2.2 =
                ((out.get ⟨i, ho⟩).coordinates.getD (0, 0, 0)).2.2) := by
  unfold interpolateFill at h
  split at h
  · cases h
  · cases h
    refine ⟨by simp [markInterpolated], ?_⟩
    intro i hi ho
    simp only [List.get_eq_getElem, markInterpolated, List.getElem_map]
    cases hc : (d.get ⟨i, hi⟩).coordinates with
    | some c0 =>
      simp only [List.get_eq_getElem] at hc
      simp [hc, fillRecord]
    | none =>
      simp only [List.get_eq_getElem] at hc
      simp [hc, fillRecord, fillCoord, pyRound_idem]

/-- C7 witness: on the concrete gapped trajectory `dC7`, the gap sample is
flagged interpolated and the first anchor survives unchanged apart from its
flag. -/
theorem C7_witness :
    (outC7.get ⟨1, by with_unfolding_all decide⟩).interpolated =
        (dC7.get ⟨1, by decide⟩).coordinates.isNone ∧
      outC7.get ⟨0, by with_unfolding_all decide⟩ =
        { dC7.get ⟨0, by decide⟩ with interpolated := false } :=
  ⟨((C7_interpolateFill_frame Sex dC7 outC7 (by with_unfolding_all rfl)).2 1
      (by decide) (by with_unfolding_all decide)).2.1,
   ((C7_interpolateFill_frame Sex dC7 outC7 (by with_unfolding_all rfl)).2 0
      (by decide) (by with_unfolding_all decide)).1 (by with_unfolding_all decide)⟩

/-! ### C1: the height-above-ground rule the code actually implements -/

/-- C1 amended: after interpolation, `set_calculated_values` sets, for EVERY
sample — including samples that carry a secondary (Vario) altitude source
value — `heightAboveGround = coordinate.z - (minimum z over all samples'
final coordinates)`; the secondary altitude value is never used directly. -/
theorem C1_height_from_min_elevation (d out : List Sample)
    (h : set_calculated_values d = .ok out) :
    out.length = d.length ∧
      ∀ i (hi : i < d.length) (ho : i < out.length),
        (d.get ⟨i, hi⟩).coordinates.isSome = true ∧
          (out.get ⟨i, ho⟩).varioAlt = (d.get ⟨i, hi⟩).varioAlt ∧
          (out.get ⟨i, ho⟩).heightAboveGround =
            ((d.get ⟨i, hi⟩).coordinates.getD (0, 0, 0)).2.2 -
              listMin (axisVals d 2) := by
  have hmin : ((coordinateRanges d).getD 2 (0, 0)).1 = listMin (axisVals d 2) := rfl
  unfold set_calculated_values at h
  split at h
  · cases h
  · split at h
    · cases h
    next hany =>
      cases h
      have hsome : ∀ x ∈ d, x.coordinates.isNone = false := by
        intro x hx
        cases hcx : x.coordinates with
        | none => exact absurd (List.any_eq_true.mpr ⟨x, hx, by simp [hcx]⟩) hany
        | some c => simp [hcx]
      refine ⟨by simp, ?_⟩
      intro i hi ho
      have hmem : d.get ⟨i, hi⟩ ∈ d := List.get_mem d i hi
      cases hc : (d.get ⟨i, hi⟩).coordinates with
      | none =>
        have hfalse := hsome _ hmem
        rw [hc] at hfalse
        simp at hfalse
      | some c =>
        refine ⟨by simp [hc], ?_, ?_⟩
        · simp only [List.get_eq_getElem] at hc ⊢
          simp [List.getElem_map]
        · simp only [List.get_eq_getElem] at hc ⊢
          simp [List.getElem_map, hc]
          rfl

/-- C1 amended witness: on `dW1` the sample with secondary altitude 150 gets
`heightAboveGround = 150 - 100 = 50` (z minus minimum z), not 150. -/
theorem C1_witness :
    (dW1.get ⟨1, by decide⟩).coordinates.isSome = true ∧
      (outW1.get ⟨1, by with_unfolding_all decide⟩).varioAlt =
        (dW1.get ⟨1, by decide⟩).varioAlt ∧
      (outW1.get ⟨1, by with_unfolding_all decide⟩).heightAboveGround =
        ((dW1.get ⟨1, by decide⟩).coordinates.getD (0, 0, 0)).2.2 -
          listMin (axisVals dW1 2) :=
  (C1_height_from_min_elevation dW1 outW1 (by with_unfolding_all rfl)).2 1
    (by decide) (by with_unfolding_all decide)

/-! ### C3: precedence of the outlier checks -/

/-- C3 amended: for a sample with a non-null coordinate the outlier checks
are applied in the fixed order median-distance, duplicate, speed; the first
matching check alone determines the rejection and the recorded description
even when a later check would also match (clause 1 holds with no assumption
on the duplicate or speed conditions); and a sample that passes the median
test but implies a per-axis speed at or above the limit relative to the
last accepted sample is rejected with the impossible-speed reason —
provided the last accepted sample sits at a NONZERO position (the code's
truthiness guard skips both the duplicate and the speed test when the last
accepted sample is at position 0, see `C3_counterexample`). -/
theorem C3_check_precedence (S : Settings) (med : Vec3) (lg : LastGood)
    (i : ℕ) (r : Sample) (c : Vec3) (hc : r.coordinates = some c) :
    (medianCond S med c = true →
        step S med lg i r =
          .ok (lg, { r with pointDescription := Desc.tooFarFromMedian c med,
                            coordinates := none })) ∧
      (∀ j tg cg, lg = some (j, tg, cg) → j ≠ 0 → medianCond S med c = false →
        planarEq c cg = true →
        step S med lg i r =
          .ok (lg, { r with pointDescription := Desc.duplicateLocation,
                            coordinates := none })) ∧
      (∀ j tg cg, lg = some (j, tg, cg) → j ≠ 0 → medianCond S med c = false →
        planarEq c cg = false → r.dateTime - tg ≠ 0 →
        speedCond S c cg (r.dateTime - tg) = true →
        step S med lg i r =
          .ok (lg, { r with
                pointDescription :=
                  Desc.impossibleSpeed (speedsOf c cg (r.dateTime - tg)),
                coordinates := none })) := by
  refine ⟨?_, ?_, ?_⟩
  · intro hm
    simp [step, hc, hm]
  · intro j tg cg hlg hj hm hdup
    subst hlg
    simp [step, hc, hm, hj, hdup]
  · intro j tg cg hlg hj hm hdup hdt hspeed
    subst hlg
    simp [step, hc, hm, hj, hdup, hdt, hspeed]

/-- Record for the C3/C10 witnesses. -/
def rW3 : Sample :=
  { mkRaw (1 / 100) 8 10 21 none 100 with coordinates := some (21, 10, 100) }

/-- C3 amended witness: with the last accepted sample at position 1,
timestamp 0, coordinate (20, 10, 100), the record `rW3` (timestamp 1/100,
longitude 21) passes the median test, has distinct planar coordinates, and
implies speed 100 ≥ 50, so it is rejected with the impossible-speed
reason. -/
theorem C3_witness :
    step Sex (21, 10, 100) (some (1, 0, (20, 10, 100))) 2 rW3 =
      .ok (some (1, 0, (20, 10, 100)),
        { rW3 with
          pointDescription :=
            Desc.impossibleSpeed (speedsOf (21, 10, 100) (20, 10, 100)
              (rW3.dateTime - 0)),
          coordinates := none }) :=
  (C3_check_precedence Sex (21, 10, 100) (some (1, 0, (20, 10, 100))) 2 rW3
      (21, 10, 100) rfl).2.2 1 0 (20, 10, 100) rfl (by decide)
    (by with_unfolding_all decide) (by with_unfolding_all decide)
    (by with_unfolding_all decide) (by with_unfolding_all decide)

/-! ### C10: unguarded division by the elapsed time -/

/-- C10 amended: the speed test divides by the elapsed seconds with no zero
guard, so whenever the last accepted sample sits at a NONZERO position and
the current sample (with non-null coordinate) passes the median and
duplicate tests with a timestamp equal to the last accepted sample's, the
outlier pass aborts the whole run with a division-by-zero error instead of
recording a per-sample rejection.  (When the last accepted sample is at
position 0 or none exists, the speed test is skipped entirely, see
`C10_counterexample`.) -/
theorem C10_zero_dt_aborts (S : Settings) (med : Vec3) (j : ℕ) (tg : ℚ)
    (cg : Vec3) (i : ℕ) (r : Sample) (c : Vec3)
    (hc : r.coordinates = some c) (hj : j ≠ 0)
    (hm : medianCond S med c = false) (hdup : planarEq c cg = false)
    (ht : r.dateTime = tg) :
    step S med (some (j, tg, cg)) i r = .error PErr.zeroDivision := by
  simp [step, hc, hm, hj, hdup, ht]

/-- Record for the C10 witness. -/
def rW10 : Sample :=
  { mkRaw 5 8 10 21 none 100 with coordinates := some (21, 10, 100) }

/-- C10 amended witness: last accepted sample at position 1 with the same
timestamp 5 — the outlier pass aborts with the division-by-zero error. -/
theorem C10_witness :
    step Sex (21, 10, 100) (some (1, 5, (20, 10, 100))) 2 rW10 =
      .error PErr.zeroDivision :=
  C10_zero_dt_aborts Sex (21, 10, 100) 1 5 (20, 10, 100) 2 rW10 (21, 10, 100)
    rfl (by decide) (by with_unfolding_all decide)
    (by with_unfolding_all decide) rfl

/-! ### C4: boundary trim and interpolation flags -/

/-- A successful boundary trim yields a nonempty list whose first and last
records carry a non-null coordinate. -/
theorem trimEnds_ok_bounds (d2 out : List Sample)
    (h : trimEnds d2 = .ok out) :
    out ≠ [] ∧
      (∀ h0 : 0 < out.length, (out.get ⟨0, h0⟩).coordinates.isSome = true) ∧
      (∀ hl : out.length - 1 < out.length,
        (out.get ⟨out.length - 1, hl⟩).coordinates.isSome = true) := by
  unfold trimEnds at h
  split at h
  · cases h
  next hall =>
    cases h
    simp only [List.all_eq_true, not_forall] at hall
    obtain ⟨x, hx, hfx⟩ := hall
    rw [Bool.not_eq_true] at hfx
    have hl1 : d2.dropWhile (fun r => r.coordinates.isNone) ≠ [] := by
      rw [Ne, List.dropWhile_eq_nil_iff]
      intro hforall
      rw [hforall x hx] at hfx
      cases hfx
    have hhead :
        ((d2.dropWhile (fun r => r.coordinates.isNone)).head hl1).coordinates.isNone
          = false :=
      List.head_dropWhile_not (fun r => r.coordinates.isNone) d2 hl1
    have hne :
        (d2.dropWhile (fun r => r.coordinates.isNone)).rdropWhile
            (fun r => r.coordinates.isNone) ≠ [] := by
      rw [Ne, List.rdropWhile_eq_nil_iff]
      intro hforall
      rw [hforall _ (List.head_mem hl1)] at hhead
      cases hhead
    refine ⟨hne, ?_, ?_⟩
    · intro h0
      obtain ⟨t, ht⟩ := List.rdropWhile_prefix
        (fun r => r.coordinates.isNone) (d2.dropWhile (fun r => r.coordinates.isNone))
      have hh1 :
          ((d2.dropWhile (fun r => r.coordinates.isNone)).rdropWhile
              (fun r => r.coordinates.isNone)).head? =
            (d2.dropWhile (fun r => r.coordinates.isNone)).head? := by
        conv_rhs => rw [← ht]
        rw [List.head?_append, List.head?_eq_head hne]
        simp
      have hheq :
          ((d2.dropWhile (fun r => r.coordinates.isNone)).rdropWhile
              (fun r => r.coordinates.isNone)).head hne =
            (d2.dropWhile (fun r => r.coordinates.isNone)).head hl1 := by
        have h2 := hh1
        rw [List.head?_eq_head hne, List.head?_eq_head hl1] at h2
        exact Option.some.inj h2
      rw [List.get_eq_getElem, List.getElem_zero, hheq]
      cases hco : ((d2.dropWhile (fun r => r.coordinates.isNone)).head hl1).coordinates with
      | none => rw [hco] at hhead; cases hhead
      | some c => simp [hco]
    · intro hl
      have hlast := List.rdropWhile_last_not
        (l := d2.dropWhile (fun r => r.coordinates.isNone))
        (p := fun r => r.coordinates.isNone) hne
      rw [Bool.not_eq_true] at hlast
      rw [List.get_eq_getElem, ← List.getLast_eq_getElem _ hne]
      cases hco : (((d2.dropWhile (fun r => r.coordinates.isNone)).rdropWhile
          (fun r => r.coordinates.isNone)).getLast hne).coordinates with
      | none => rw [hco] at hlast; cases hlast
      | some c => simp [hco]

/-- C4: after a successful clean (including the boundary trim) the first and
last samples have a non-null coordinate; consequently, after the Gap
Interpolator marks the `interpolated` flag, the first and last samples have
`interpolated = false` and every sample with `interpolated = true` lies
strictly between two samples with `interpolated = false`. -/
theorem C4_boundary_validity (S : Settings) (d out : List Sample)
    (h : clean_coordinates S d = .ok out) :
    out ≠ [] ∧
      (∀ h0 : 0 < out.length, (out.get ⟨0, h0⟩).coordinates.isSome = true) ∧
      (∀ hl : out.length - 1 < out.length,
        (out.get ⟨out.length - 1, hl⟩).coordinates.isSome = true) ∧
      (∀ h0 : 0 < (markInterpolated out).length,
        ((markInterpolated out).get ⟨0, h0⟩).interpolated = false) ∧
      (∀ hl : (markInterpolated out).length - 1 < (markInterpolated out).length,
        ((markInterpolated out).get
            ⟨(markInterpolated out).length - 1, hl⟩).interpolated = false) ∧
      ∀ i (hi : i < (markInterpolated out).length),
        ((markInterpolated out).get ⟨i, hi⟩).interpolated = true →
        ∃ (j k : ℕ) (hj : j < (markInterpolated out).length)
          (hk : k < (markInterpolated out).length),
          j < i ∧ i < k ∧
            ((markInterpolated out).get ⟨j, hj⟩).interpolated = false ∧
            ((markInterpolated out).get ⟨k, hk⟩).interpolated = false := by
  unfold clean_coordinates at h
  cases hop : outlierPass S (medianCoords (validityPass S d)) (validityPass S d) with
  | error e => rw [hop] at h; cases h
  | ok d2 =>
    rw [hop] at h
    have htrim : trimEnds d2 = .ok out := h
    obtain ⟨hne, hfst, hlst⟩ := trimEnds_ok_bounds d2 out htrim
    have hlen : (markInterpolated out).length = out.length := by
      simp [markInterpolated]
    have hflag : ∀ i (hi : i < out.length) (hi' : i < (markInterpolated out).length),
        ((markInterpolated out).get ⟨i, hi'⟩).interpolated =
          (out.get ⟨i, hi⟩).coordinates.isNone := by
      intro i hi hi'
      simp [markInterpolated, List.get_eq_getElem, List.getElem_map]
    have hlpos : 0 < out.length := List.length_pos.mpr hne
    have hflag0 : ∀ h0 : 0 < (markInterpolated out).length,
        ((markInterpolated out).get ⟨0, h0⟩).interpolated = false := by
      intro h0
      rw [hflag 0 hlpos h0]
      have := hfst hlpos
      cases hco : (out.get ⟨0, hlpos⟩).coordinates with
      | none => rw [hco] at this; cases this
      | some c => simp [hco]
    have hlm1 : out.length - 1 < out.length := by omega
    have hgc : ∀ (l : List Sample) (i j : ℕ) (hi : i < l.length) (hj : j < l.length),
        i = j → l.get ⟨i, hi⟩ = l.get ⟨j, hj⟩ := by
      intro l i j hi hj hij
      subst hij
      rfl
    have hflagL : ∀ hl : (markInterpolated out).length - 1 < (markInterpolated out).length,
        ((markInterpolated out).get
            ⟨(markInterpolated out).length - 1, hl⟩).interpolated = false := by
      intro hl
      rw [hgc (markInterpolated out) ((markInterpolated out).length - 1)
            (out.length - 1) hl (by omega) (by omega)]
      rw [hflag (out.length - 1) hlm1 (by omega)]
      have := hlst hlm1
      cases hco : (out.get ⟨out.length - 1, hlm1⟩).coordinates with
      | none => rw [hco] at this; cases this
      | some c => simp [hco]
    refine ⟨hne, hfst, hlst, hflag0, hflagL, ?_⟩
    intro i hi htrue
    have hi0 : i ≠ 0 := by
      intro h0
      subst h0
      rw [hflag0 hi] at htrue
      cases htrue
    have hiL : i ≠ (markInterpolated out).length - 1 := by
      intro hL
      have h2 : ((markInterpolated out).get
          ⟨(markInterpolated out).length - 1, by omega⟩).interpolated = true := by
        rw [hgc (markInterpolated out) ((markInterpolated out).length - 1) i
              (by omega) hi hL.symm]
        exact htrue
      rw [hflagL (by omega)] at h2
      cases h2
    have hlen1 : (markInterpolated out).length - 1 < (markInterpolated out).length := by
      omega
    exact ⟨0, (markInterpolated out).length - 1, by omega, hlen1,
      by omega, by omega, hflag0 (by omega), hflagL hlen1⟩

/-- C4 witness: on `dW4` (bad samples at both ends around two good ones) the
cleaned trajectory starts and ends on a non-null coordinate and its first
flagged sample is not interpolated. -/
theorem C4_witness :
    (outW4.get ⟨0, by with_unfolding_all decide⟩).coordinates.isSome = true ∧
      ((markInterpolated outW4).get
          ⟨0, by with_unfolding_all decide⟩).interpolated = false :=
  ⟨(C4_boundary_validity Sex dW4 outW4 (by with_unfolding_all rfl)).2.1
      (by with_unfolding_all decide),
   (C4_boundary_validity Sex dW4 outW4 (by with_unfolding_all rfl)).2.2.2.1
      (by with_unfolding_all decide)⟩

/-! ### C6: the validity filter -/

/-- C6: the Validity Filter sets a non-null coordinate iff
`validSatRange[0] < Sats < validSatRange[1]` (both strict); the accepted
coordinate is (longitude, latitude, elevation) — the two GPS fields
reversed — with elevation the secondary (Vario) altitude when present,
otherwise the primary (GPS) altitude; and on rejection the description
records the offending satellite count. -/
theorem C6_validity_filter (S : Settings) (i : ℕ) (r : Sample) :
    ((validityRecord S i r).coordinates.isSome = true ↔
        (S.validSatRange.1 < r.sats ∧ r.sats < S.validSatRange.2)) ∧
      ((validityRecord S i r).coordinates.isSome = true →
        (validityRecord S i r).coordinates =
            some (r.gps2, r.gps1, r.varioAlt.getD r.gpsAlt) ∧
          (validityRecord S i r).pointDescription = Desc.validGPS) ∧
      ((validityRecord S i r).coordinates = none →
        (validityRecord S i r).pointDescription = Desc.badSats r.sats) := by
  unfold validityRecord
  split
  next hin => simp [hin]
  next hout => simp [hout]

/-- C6 witness: a sample with 8 satellites and a Vario altitude is accepted
with coordinate (lon, lat, vario); one with 0 satellites is rejected with
`Bad Satellite count: 0`. -/
theorem C6_witness :
    (validityRecord Sex 1 (mkRaw 0 8 10 20 (some 100) 90)).coordinates =
        some (20, 10, 100) ∧
      (validityRecord Sex 2 (mkRaw 1 0 10 20 none 90)).pointDescription =
        Desc.badSats 0 :=
  ⟨((C6_validity_filter Sex 1 (mkRaw 0 8 10 20 (some 100) 90)).2.1
      (by decide)).1,
   (C6_validity_filter Sex 2 (mkRaw 1 0 10 20 none 90)).2.2 (by decide)⟩

/-! ### C9: determinism of the pipeline in the raw fields -/

theorem raw_fields (a b : Sample) (h : raw a = raw b) :
    a.dateTime = b.dateTime ∧ a.sats = b.sats ∧ a.gps1 = b.gps1 ∧
      a.gps2 = b.gps2 ∧ a.varioAlt = b.varioAlt ∧ a.gpsAlt = b.gpsAlt := by
  simpa [raw, Prod.ext_iff] using h

theorem validityRecord_congr (S : Settings) (i : ℕ) (a b : Sample)
    (h : raw a = raw b) :
    SemiEq (validityRecord S i a) (validityRecord S i b) := by
  obtain ⟨h1, h2, h3, h4, h5, h6⟩ := raw_fields a b h
  by_cases hc : S.validSatRange.1 < a.sats ∧ a.sats < S.validSatRange.2
  · have hc' : S.validSatRange.1 < b.sats ∧ b.sats < S.validSatRange.2 := by
      rw [← h2]; exact hc
    simp [validityRecord, hc, hc', SemiEq, raw, h1, h2, h3, h4, h5, h6]
  · have hc' : ¬ (S.validSatRange.1 < b.sats ∧ b.sats < S.validSatRange.2) := by
      rw [← h2]; exact hc
    simp [validityRecord, hc, hc', SemiEq, raw, h1, h2, h3, h4, h5, h6]

theorem validityPass_congr (S : Settings) :
    ∀ {d d' : List Sample}, List.Forall₂ RawEq d d' →
      ∀ s, List.Forall₂ SemiEq (enumMap (validityRecord S) s d)
        (enumMap (validityRecord S) s d') := by
  intro d d' h
  induction h with
  | nil => intro s; exact .nil
  | cons hab hrest ih =>
    intro s
    exact .cons (validityRecord_congr S s _ _ hab) (ih (s + 1))

theorem filterMap_coords_congr :
    ∀ {l l' : List Sample}, List.Forall₂ SemiEq l l' →
      l.filterMap (·.coordinates) = l'.filterMap (·.coordinates) := by
  intro l l' h
  induction h with
  | nil => rfl
  | cons hab hrest ih =>
    simp only [List.filterMap_cons]
    rw [hab.2.2.2, ih]

theorem medianCoords_congr {l l' : List Sample}
    (h : List.Forall₂ SemiEq l l') : medianCoords l = medianCoords l' := by
  simp only [medianCoords, filterMap_coords_congr h]

/-- One outlier step is determined by the semi projection of its input: on
semi-equal records it makes the same decision, produces the same carried
state, and outputs semi-equal records. -/
theorem step_congr (S : Settings) (med : Vec3) (lg : LastGood) (i : ℕ)
    (a b : Sample) (h : SemiEq a b) :
    (step S med lg i a = .error PErr.zeroDivision ∧
        step S med lg i b = .error PErr.zeroDivision) ∨
      (∃ lg' a' b', step S med lg i a = .ok (lg', a') ∧
        step S med lg i b = .ok (lg', b') ∧ SemiEq a' b') := by
  obtain ⟨hraw, hidx, hdesc, hco⟩ := h
  obtain ⟨h1, h2, h3, h4, h5, h6⟩ := raw_fields a b hraw
  have hb1 : b.dateTime = a.dateTime := h1.symm
  cases hc : a.coordinates with
  | none =>
    have hc' : b.coordinates = none := by rw [← hco]; exact hc
    right
    exact ⟨lg, a, b, by simp [step, hc], by simp [step, hc'],
      hraw, hidx, hdesc, hco⟩
  | some c =>
    have hc' : b.coordinates = some c := by rw [← hco]; exact hc
    by_cases hm : medianCond S med c = true
    · right
      exact ⟨lg,
        { a with pointDescription := Desc.tooFarFromMedian c med,
                 coordinates := none },
        { b with pointDescription := Desc.tooFarFromMedian c med,
                 coordinates := none },
        by simp [step, hc, hm], by simp [step, hc', hm],
        hraw, hidx, rfl, rfl⟩
    · cases lg with
      | none =>
        right
        refine ⟨some (i, a.dateTime, c), a, b, by simp [step, hc, hm], ?_,
          hraw, hidx, hdesc, hco⟩
        simp [step, hc', hm, hb1]
      | some t =>
        obtain ⟨j, tg, cg⟩ := t
        by_cases hd : j ≠ 0 ∧ planarEq c cg = true
        · right
          exact ⟨some (j, tg, cg),
            { a with pointDescription := Desc.duplicateLocation,
                     coordinates := none },
            { b with pointDescription := Desc.duplicateLocation,
                     coordinates := none },
            by simp [step, hc, hm, hd],
            by simp [step, hc', hm, hd], hraw, hidx, rfl, rfl⟩
        · by_cases hj : j ≠ 0
          · have hdup : planarEq c cg = false := by
              rcases Bool.eq_false_or_eq_true (planarEq c cg) with hf | ht
              · exact absurd ⟨hj, hf⟩ hd
              · exact ht
            by_cases hz : a.dateTime - tg = 0
            · left
              constructor
              · simp [step, hc, hm, hdup, hj, hz]
              · simp [step, hc', hm, hdup, hj, hb1, hz]
            · by_cases hs : speedCond S c cg (a.dateTime - tg) = true
              · right
                refine ⟨some (j, tg, cg),
                  { a with
                    pointDescription :=
                      Desc.impossibleSpeed (speedsOf c cg (a.dateTime - tg)),
                    coordinates := none },
                  { b with
                    pointDescription :=
                      Desc.impossibleSpeed (speedsOf c cg (a.dateTime - tg)),
                    coordinates := none },
                  by simp [step, hc, hm, hdup, hj, hz, hs], ?_,
                  hraw, hidx, rfl, rfl⟩
                simp [step, hc', hm, hdup, hj, hb1, hz, hs]
              · right
                refine ⟨some (i, a.dateTime, c), a, b,
                  by simp [step, hc, hm, hdup, hj, hz, hs], ?_,
                  hraw, hidx, hdesc, hco⟩
                simp [step, hc', hm, hdup, hj, hb1, hz, hs]
          · right
            refine ⟨some (i, a.dateTime, c), a, b,
              by simp [step, hc, hm, hd, hj], ?_, hraw, hidx, hdesc, hco⟩
            simp [step, hc', hm, hd, hj, hb1]

theorem outlierGo_congr (S : Settings) (med : Vec3) :
    ∀ {l l' : List Sample}, List.Forall₂ SemiEq l l' → ∀ lg i0,
      (outlierGo S med lg i0 l = .error PErr.zeroDivision ∧
          outlierGo S med lg i0 l' = .error PErr.zeroDivision) ∨
        (∃ o o', outlierGo S med lg i0 l = .ok o ∧
          outlierGo S med lg i0 l' = .ok o' ∧ List.Forall₂ SemiEq o o') := by
  intro l l' h
  induction h with
  | nil => intro lg i0; right; exact ⟨[], [], rfl, rfl, .nil⟩
  | cons hab hrest ih =>
    intro lg i0
    rcases step_congr S med lg i0 _ _ hab with ⟨hea, heb⟩ | ⟨lg', a', b', ha, hb, hab'⟩
    · left
      constructor
      · simp [outlierGo, hea, Except.bind]
      · simp [outlierGo, heb, Except.bind]
    · rcases ih lg' (i0 + 1) with ⟨hea, heb⟩ | ⟨o, o', ho, ho', hoo⟩
      · left
        constructor
        · simp [outlierGo, ha, hea, Except.bind]
        · simp [outlierGo, hb, heb, Except.bind]
      · right
        refine ⟨a' :: o, b' :: o', ?_, ?_, .cons hab' hoo⟩
        · simp [outlierGo, ha, ho, Except.bind]
        · simp [outlierGo, hb, ho', Except.bind]

theorem dropWhile_semi_congr :
    ∀ {l l' : List Sample}, List.Forall₂ SemiEq l l' →
      List.Forall₂ SemiEq (l.dropWhile (·.coordinates.isNone))
        (l'.dropWhile (·.coordinates.isNone)) := by
  intro l l' h
  induction h with
  | nil => exact .nil
  | cons hab hrest ih =>
    rename_i a b as bs
    by_cases hca : a.coordinates.isNone = true
    · have hcb : b.coordinates.isNone = true := by rw [← hab.2.2.2]; exact hca
      simpa [List.dropWhile_cons, hca, hcb] using ih
    · have hcb : ¬ b.coordinates.isNone = true := by rw [← hab.2.2.2]; exact hca
      simpa [List.dropWhile_cons, hca, hcb] using List.Forall₂.cons hab hrest

theorem all_none_congr :
    ∀ {l l' : List Sample}, List.Forall₂ SemiEq l l' →
      l.all (·.coordinates.isNone) = l'.all (·.coordinates.isNone) := by
  intro l l' h
  induction h with
  | nil => rfl
  | cons hab hrest ih => simp [List.all_cons, hab.2.2.2, ih]

theorem rdropWhile_semi_congr {l l' : List Sample}
    (h : List.Forall₂ SemiEq l l') :
    List.Forall₂ SemiEq (l.rdropWhile (·.coordinates.isNone))
      (l'.rdropWhile (·.coordinates.isNone)) := by
  unfold List.rdropWhile
  exact List.forall₂_reverse_iff.mpr
    (dropWhile_semi_congr (List.forall₂_reverse_iff.mpr h))

theorem trimEnds_congr {l l' : List Sample}
    (h : List.Forall₂ SemiEq l l') :
    (trimEnds l = .error PErr.indexError ∧
        trimEnds l' = .error PErr.indexError) ∨
      (∃ o o', trimEnds l = .ok o ∧ trimEnds l' = .ok o' ∧
        List.Forall₂ SemiEq o o') := by
  unfold trimEnds
  by_cases hall : l.all (·.coordinates.isNone) = true
  · have hall' : l'.all (·.coordinates.isNone) = true := by
      rw [← all_none_congr h]; exact hall
    left
    constructor
    · simp [hall]
    · simp [hall']
  · have hall' : ¬ l'.all (·.coordinates.isNone) = true := by
      rw [← all_none_congr h]; exact hall
    right
    refine ⟨(l.dropWhile (·.coordinates.isNone)).rdropWhile (·.coordinates.isNone),
      (l'.dropWhile (·.coordinates.isNone)).rdropWhile (·.coordinates.isNone),
      by simp [hall], by simp [hall'], ?_⟩
    exact rdropWhile_semi_congr (dropWhile_semi_congr h)

theorem clean_congr (S : Settings) {d d' : List Sample}
    (h : List.Forall₂ RawEq d d') :
    (∃ e, clean_coordinates S d = .error e ∧
        clean_coordinates S d' = .error e) ∨
      (∃ o o', clean_coordinates S d = .ok o ∧
        clean_coordinates S d' = .ok o' ∧ List.Forall₂ SemiEq o o') := by
  have hv : List.Forall₂ SemiEq (validityPass S d) (validityPass S d') :=
    validityPass_congr S h 1
  have hmed : medianCoords (validityPass S d) = medianCoords (validityPass S d') :=
    medianCoords_congr hv
  unfold clean_coordinates outlierPass
  rcases outlierGo_congr S (medianCoords (validityPass S d)) hv none 0 with
    ⟨hea, heb⟩ | ⟨o, o', ho, ho', hoo⟩
  · left
    refine ⟨PErr.zeroDivision, ?_, ?_⟩
    · simp [hea, Except.bind]
    · rw [← hmed]
      simp [heb, Except.bind]
  · rcases trimEnds_congr hoo with ⟨hta, htb⟩ | ⟨t, t', hta, htb, htt⟩
    · left
      refine ⟨PErr.indexError, ?_, ?_⟩
      · simp [ho, Except.bind, hta]
      · rw [← hmed]
        simp [ho', Except.bind, htb]
    · right
      refine ⟨t, t', ?_, ?_, htt⟩
      · simp [ho, Except.bind, hta]
      · rw [← hmed]
        simp [ho', Except.bind, htb]

theorem sample_eq_of_parts {a b : Sample} (hraw : raw a = raw b)
    (hidx : a.index = b.index) (hdesc : a.pointDescription = b.pointDescription)
    (hco : a.coordinates = b.coordinates) (hint : a.interpolated = b.interpolated)
    (hh : a.heightAboveGround = b.heightAboveGround) : a = b := by
  obtain ⟨h1, h2, h3, h4, h5, h6⟩ := raw_fields a b hraw
  cases a
  cases b
  simp_all

theorem mark_congr {l l' : List Sample} (h : List.Forall₂ SemiEq l l') :
    List.Forall₂ (fun a b => SemiEq a b ∧ a.interpolated = b.interpolated)
      (markInterpolated l) (markInterpolated l') := by
  induction h with
  | nil => exact .nil
  | cons hab hrest ih =>
    simp only [markInterpolated, List.map_cons] at ih ⊢
    exact List.Forall₂.cons
      ⟨⟨hab.1, hab.2.1, hab.2.2.1, hab.2.2.2⟩, by rw [hab.2.2.2]⟩ ih

theorem anchorsOf_congr {l l' : List Sample}
    (h : List.Forall₂
      (fun a b => SemiEq a b ∧ a.interpolated = b.interpolated) l l') :
    anchorsOf l = anchorsOf l' := by
  induction h with
  | nil => rfl
  | cons hab hrest ih =>
    obtain ⟨⟨hraw, _, _, hco⟩, _⟩ := hab
    obtain ⟨h1, _, _, _, _, _⟩ := raw_fields _ _ hraw
    simp only [anchorsOf, List.filterMap_cons] at ih ⊢
    rw [hco, h1, ih]

theorem fill_congr (S : Settings) (anch : List (ℚ × Vec3)) {a b : Sample}
    (hab : SemiEq a b ∧ a.interpolated = b.interpolated) :
    SemiEq (fillRecord S anch a) (fillRecord S anch b) ∧
      (fillRecord S anch a).interpolated = (fillRecord S anch b).interpolated := by
  obtain ⟨⟨hraw, hidx, hdesc, hco⟩, hint⟩ := hab
  obtain ⟨h1, h2, h3, h4, h5, h6⟩ := raw_fields a b hraw
  unfold fillRecord
  by_cases hn : a.coordinates.isNone = true
  · have hn' : b.coordinates.isNone = true := by rw [← hco]; exact hn
    rw [if_pos hn, if_pos hn']
    exact ⟨⟨hraw, hidx, hdesc, by rw [h1]⟩, hint⟩
  · have hn' : ¬ b.coordinates.isNone = true := by rw [← hco]; exact hn
    rw [if_neg hn, if_neg hn']
    exact ⟨⟨hraw, hidx, hdesc, hco⟩, hint⟩

theorem axisVals_congr {l l' : List Sample}
    (h : List.Forall₂
      (fun a b => SemiEq a b ∧ a.interpolated = b.interpolated) l l')
    (i : ℕ) : axisVals l i = axisVals l' i := by
  induction h with
  | nil => rfl
  | cons hab hrest ih =>
    simp only [axisVals, List.filterMap_cons] at ih ⊢
    rw [hab.1.2.2.2, ih]

theorem any_none_congr {l l' : List Sample}
    (h : List.Forall₂
      (fun a b => SemiEq a b ∧ a.interpolated = b.interpolated) l l') :
    l.any (·.coordinates.isNone) = l'.any (·.coordinates.isNone) := by
  induction h with
  | nil => rfl
  | cons hab hrest ih => simp [List.any_cons, hab.1.2.2.2, ih]

theorem forall₂_map_both {R : Sample → Sample → Prop} (f : Sample → Sample) :
    ∀ {l l' : List Sample}, List.Forall₂ R l l' →
      (∀ a b, R a b → R (f a) (f b)) →
      List.Forall₂ R (l.map f) (l'.map f) := by
  intro l l' h hf
  induction h with
  | nil => exact .nil
  | cons hab hrest ih =>
    simp only [List.map_cons]
    exact .cons (hf _ _ hab) ih

theorem map_height_congr (mz : ℚ) :
    ∀ {l l' : List Sample},
      List.Forall₂
        (fun a b => SemiEq a b ∧ a.interpolated = b.interpolated) l l' →
      l.map (fun r =>
          { r with heightAboveGround := ((r.coordinates.getD (0, 0, 0)).2.2) - mz }) =
        l'.map (fun r =>
          { r with heightAboveGround := ((r.coordinates.getD (0, 0, 0)).2.2) - mz }) := by
  intro l l' h
  induction h with
  | nil => rfl
  | cons hab hrest ih =>
    simp only [List.map_cons]
    rw [ih]
    obtain ⟨⟨hraw, hidx, hdesc, hco⟩, hint⟩ := hab
    congr 1
    exact sample_eq_of_parts hraw hidx hdesc hco hint (by rw [hco])

theorem setCalc_congr {l l' : List Sample}
    (h : List.Forall₂
      (fun a b => SemiEq a b ∧ a.interpolated = b.interpolated) l l') :
    set_calculated_values l = set_calculated_values l' := by
  have hall : l.all (·.coordinates.isNone) = l'.all (·.coordinates.isNone) :=
    all_none_congr (h.imp fun _ _ hab => hab.1)
  have hany := any_none_congr h
  have hranges : coordinateRanges l = coordinateRanges l' := by
    simp only [coordinateRanges, axisVals_congr h]
  unfold set_calculated_values
  rw [← hall, ← hany, ← hranges]
  by_cases h1 : l.all (·.coordinates.isNone) = true
  · rw [if_pos h1, if_pos h1]
  · rw [if_neg h1, if_neg h1]
    by_cases h2 : l.any (·.coordinates.isNone) = true
    · rw [if_pos h2, if_pos h2]
    · rw [if_neg h2, if_neg h2]
      congr 1
      exact map_height_congr (((coordinateRanges l).getD 2 (0, 0)).1) h

theorem interp_congr (S : Settings) {l l' : List Sample}
    (h : List.Forall₂ SemiEq l l') :
    interpolate_coordinates S l = interpolate_coordinates S l' := by
  have hm := mark_congr h
  have hanch := anchorsOf_congr hm
  unfold interpolate_coordinates interpolateFill
  rw [← hanch]
  by_cases hcond : ((anchorsOf (markInterpolated l)).length < 2 ∨
      ¬ strictIncr ((anchorsOf (markInterpolated l)).map (·.1)) = true)
  · rw [if_pos hcond, if_pos hcond]
  · rw [if_neg hcond, if_neg hcond]
    simp only [Except.bind]
    exact setCalc_congr (forall₂_map_both _ hm fun a b hab => fill_congr S _ hab)

/-- The pipeline is a function of the raw fields alone: on inputs that agree
pointwise on the raw fields it produces identical results. -/
theorem pipeline_raw_det (S : Settings) {d d' : List Sample}
    (h : List.Forall₂ RawEq d d') : pipeline S d = pipeline S d' := by
  unfold pipeline
  rcases clean_congr S h with ⟨e, hea, heb⟩ | ⟨o, o', ho, ho', hoo⟩
  · rw [hea, heb]
  · rw [ho, ho']
    simp only [Except.bind]
    exact interp_congr S hoo

theorem forall₂_rawEq_trans :
    ∀ {l₁ l₂ l₃ : List Sample}, List.Forall₂ RawEq l₁ l₂ →
      List.Forall₂ RawEq l₂ l₃ → List.Forall₂ RawEq l₁ l₃ := by
  intro l₁ l₂ l₃ h1
  induction h1 generalizing l₃ with
  | nil =>
    intro h2
    cases h2
    exact .nil
  | cons hab hrest ih =>
    intro h2
    cases h2 with
    | cons hbc hrest2 => exact .cons (Eq.trans hab hbc) (ih hrest2)

theorem validityPass_raw (S : Settings) :
    ∀ (l : List Sample) (s : ℕ),
      List.Forall₂ RawEq (enumMap (validityRecord S) s l) l := by
  intro l
  induction l with
  | nil => intro s; exact .nil
  | cons r rest ih =>
    intro s
    exact .cons (validityRecord_pres S s r).2 (ih (s + 1))

theorem outlierGo_raw (S : Settings) (med : Vec3) :
    ∀ (l : List Sample) (lg : LastGood) (i0 : ℕ) (out : List Sample),
      outlierGo S med lg i0 l = .ok out → List.Forall₂ RawEq out l := by
  intro l
  induction l with
  | nil =>
    intro lg i0 out h
    cases h
    exact .nil
  | cons r rest ih =>
    intro lg i0 out h
    unfold outlierGo at h
    cases hs : step S med lg i0 r with
    | error e =>
      rw [hs] at h
      exact absurd h (by simp [Except.bind])
    | ok p =>
      obtain ⟨lg', r'⟩ := p
      rw [hs] at h
      simp only [Except.bind] at h
      cases hrest : outlierGo S med lg' (i0 + 1) rest with
      | error e =>
        rw [hrest] at h
        exact absurd h (by simp [Except.bind])
      | ok rest' =>
        rw [hrest] at h
        simp only [Except.bind] at h
        cases h
        exact .cons (step_ok_pres S med lg i0 r lg' r' hs).2.1
          (ih lg' (i0 + 1) rest' hrest)

theorem dropWhile_length_eq (p : Sample → Bool) :
    ∀ l : List Sample, (l.dropWhile p).length = l.length → l.dropWhile p = l := by
  intro l
  induction l with
  | nil => intro _; rfl
  | cons a t ih =>
    intro h
    by_cases hp : p a = true
    · exfalso
      rw [List.dropWhile_cons_of_pos hp] at h
      have hle : (t.dropWhile p).length ≤ t.length :=
        (List.dropWhile_sublist p).length_le
      simp at h
      omega
    · rw [List.dropWhile_cons_of_neg hp]

theorem rdropWhile_length_eq (p : Sample → Bool) (l : List Sample)
    (h : (l.rdropWhile p).length = l.length) : l.rdropWhile p = l := by
  unfold List.rdropWhile at h ⊢
  have hlen : (l.reverse.dropWhile p).length = l.reverse.length := by
    simpa using h
  rw [dropWhile_length_eq p l.reverse hlen, List.reverse_reverse]

theorem trimEnds_len_id (l out : List Sample) (h : trimEnds l = .ok out)
    (hlen : out.length = l.length) : out = l := by
  unfold trimEnds at h
  split at h
  · cases h
  · cases h
    have hd_le : (l.dropWhile (·.coordinates.isNone)).length ≤ l.length :=
      (List.dropWhile_sublist _).length_le
    have hr_le : ((l.dropWhile (·.coordinates.isNone)).rdropWhile
        (·.coordinates.isNone)).length ≤
          (l.dropWhile (·.coordinates.isNone)).length := by
      unfold List.rdropWhile
      have := (List.dropWhile_sublist
        (l := (l.dropWhile (·.coordinates.isNone)).reverse)
        (·.coordinates.isNone)).length_le
      simpa using this
    have hdeq : l.dropWhile (·.coordinates.isNone) = l :=
      dropWhile_length_eq _ l (by omega)
    rw [hdeq] at hlen ⊢
    exact rdropWhile_length_eq _ l (by omega)

theorem interp_raw (S : Settings) (l out : List Sample)
    (h : interpolate_coordinates S l = .ok out) :
    List.Forall₂ RawEq out l := by
  obtain ⟨hlen, hpt⟩ := interp_pres S l out h
  exact List.forall₂_of_length_eq_of_get hlen fun i h₁ h₂ => (hpt i h₂ h₁).2

/-- C9 amended: when the first run trims no sample (the output has the same
length as the input), re-running the full pipeline on the output reproduces
it exactly.  (When leading samples are trimmed, the re-run renumbers
`Index` from 1 and the output differs, see `C9_counterexample`.) -/
theorem C9_idempotent_no_trim (S : Settings) (d out : List Sample)
    (h : pipeline S d = .ok out) (hlen : out.length = d.length) :
    pipeline S out = .ok out := by
  have hpipe := h
  unfold pipeline at h
  cases hc : clean_coordinates S d with
  | error e =>
    rw [hc] at h
    exact absurd h (by simp [Except.bind])
  | ok mid =>
    rw [hc] at h
    simp only [Except.bind] at h
    have hmidlen : out.length = mid.length := (interp_pres S mid out h).1
    have hFmid : List.Forall₂ RawEq mid d := by
      unfold clean_coordinates at hc
      cases hop : outlierPass S (medianCoords (validityPass S d))
          (validityPass S d) with
      | error e =>
        rw [hop] at hc
        exact absurd hc (by simp [Except.bind])
      | ok d2 =>
        rw [hop] at hc
        simp only [Except.bind] at hc
        have hd2 : List.Forall₂ RawEq d2 (validityPass S d) :=
          outlierGo_raw S _ (validityPass S d) none 0 d2 hop
        have hvlen : (validityPass S d).length = d.length :=
          enumMap_length _ _ _
        have hd2len : d2.length = d.length := by
          have := hd2.length_eq
          omega
        have hmid_eq : mid = d2 := trimEnds_len_id d2 mid hc (by omega)
        rw [hmid_eq]
        exact forall₂_rawEq_trans hd2 (validityPass_raw S d 1)
    have hFout : List.Forall₂ RawEq out mid := interp_raw S mid out h
    have hF : List.Forall₂ RawEq out d := forall₂_rawEq_trans hFout hFmid
    rw [pipeline_raw_det S hF]
    exact hpipe

/-- C9 amended witness: on `dW9` (two good samples, nothing rejected or
trimmed) the pipeline output is a fixed point of the pipeline. -/
theorem C9_witness : pipeline Sex outW9 = .ok outW9 :=
  C9_idempotent_no_trim Sex dW9 outW9 (by with_unfolding_all rfl)
    (by with_unfolding_all rfl)

end Telemetry2kml
